import Mathlib

/-!
Verification development for the `atermis` MEV-share arbitrage bot.

The development shallowly embeds:
* the matchmaker wire types (`BundleRequest`, `BundleTx`, `Inclusion`,
  `Validity`, `Privacy`, `PrivacyHint`, …) from
  `crates/clients/matchmaker/src/types.rs`, together with an explicit
  model of their serde JSON (de)serialization;
* the strategy logic (`process_event`, `generate_bundles`) from
  `crates/strategies/mev-share-uni-arb/src/strategy.rs`, with the node
  middleware and the transaction signer as explicit collaborator
  functions in an environment record;
* the MEV-share executor (`execute`, `get_all_mev_share_endpoints`) from
  `crates/artemis-core/src/executors/mev_share_executor.rs`.

Machine integers (`U64`, `U256`, `H160`, `H256`, `u64`) are modelled as
`Nat`; where overflow matters (`U64` addition panics on overflow in the
`uint` crate, `saturating_add` clamps at `2^64 - 1`) it is modelled
explicitly.  Rust panics (`unwrap` on `Err`/`None`, arithmetic overflow)
are modelled as `Except.error`; recoverable fallible calls return
`Except`/`Option` values supplied by the environment.
-/

/-! ### Hex encoding primitives

Ethers serializes `U64` as a minimal `0x`-prefixed hex quantity, and
`H256`/`H160` (`Address`)/`Bytes` as `0x`-prefixed lowercase hex of fixed
(resp. even) width.  We model the digits explicitly so that the serde
round-trip claims are about a real codec. -/

/-- One lowercase hex digit for a value `< 16`. -/
def hexDigitChar (n : Nat) : Char :=
  if n < 10 then Char.ofNat (48 + n) else Char.ofNat (87 + n)

/-- Numeric value of a hex digit character (either case), `none` otherwise. -/
def hexCharVal (c : Char) : Option Nat :=
  if 48 ≤ c.toNat ∧ c.toNat ≤ 57 then some (c.toNat - 48)
  else if 97 ≤ c.toNat ∧ c.toNat ≤ 102 then some (c.toNat - 87)
  else if 65 ≤ c.toNat ∧ c.toNat ≤ 70 then some (c.toNat - 55)
  else none

/-- Most-significant-first hex digits of `n`; empty for `0`. -/
def natToHexCore (n : Nat) : List Char :=
  if h : n = 0 then []
  else natToHexCore (n / 16) ++ [hexDigitChar (n % 16)]
decreasing_by exact Nat.div_lt_self (Nat.pos_of_ne_zero h) (by decide)

/-- Horner-style decoding of hex digits, accumulating into `acc`. -/
def hexDecodeCore : List Char → Nat → Option Nat
  | [], acc => some acc
  | c :: cs, acc =>
    match hexCharVal c with
    | none => none
    | some v => hexDecodeCore cs (acc * 16 + v)

theorem hexCharVal_hexDigitChar {v : Nat} (h : v < 16) :
    hexCharVal (hexDigitChar v) = some v := by
  interval_cases v <;> decide

theorem hexDecodeCore_append (l₁ l₂ : List Char) (acc : Nat) :
    hexDecodeCore (l₁ ++ l₂) acc =
      match hexDecodeCore l₁ acc with
      | none => none
      | some m => hexDecodeCore l₂ m := by
  induction l₁ generalizing acc with
  | nil => simp [hexDecodeCore]
  | cons c cs ih =>
    simp only [List.cons_append, hexDecodeCore]
    cases hexCharVal c with
    | none => rfl
    | some v => exact ih _

theorem natToHexCore_zero : natToHexCore 0 = [] := by
  rw [natToHexCore]; rfl

theorem natToHexCore_pos {n : Nat} (h : n ≠ 0) :
    natToHexCore n = natToHexCore (n / 16) ++ [hexDigitChar (n % 16)] := by
  conv_lhs => rw [natToHexCore]
  simp [h]

theorem hexDecodeCore_natToHexCore (n : Nat) : ∀ acc : Nat,
    hexDecodeCore (natToHexCore n) acc = some (acc * 16 ^ (natToHexCore n).length + n) := by
  induction n using Nat.strong_induction_on with
  | _ n ih =>
    intro acc
    by_cases h : n = 0
    · subst h; simp [natToHexCore_zero, hexDecodeCore]
    · rw [natToHexCore_pos h, hexDecodeCore_append]
      rw [ih (n / 16) (Nat.div_lt_self (Nat.pos_of_ne_zero h) (by decide))]
      simp only [hexDecodeCore, hexCharVal_hexDigitChar (Nat.mod_lt n (by decide))]
      congr 1
      have hsplit : n = 16 * (n / 16) + n % 16 := (Nat.div_add_mod n 16).symm
      simp only [List.length_append, List.length_cons, List.length_nil]
      ring_nf
      omega

theorem natToHexCore_length_le {n k : Nat} (h : n < 16 ^ k) :
    (natToHexCore n).length ≤ k := by
  induction k generalizing n with
  | zero =>
    have : n = 0 := by omega
    simp [this, natToHexCore_zero]
  | succ k ih =>
    by_cases hz : n = 0
    · simp [hz, natToHexCore_zero]
    · rw [natToHexCore_pos hz]
      have hdiv : n / 16 < 16 ^ k := by
        rw [Nat.div_lt_iff_lt_mul (by decide : 0 < 16)]
        calc n < 16 ^ (k + 1) := h
        _ = 16 ^ k * 16 := by ring
      have := ih hdiv
      simp only [List.length_append, List.length_cons, List.length_nil]
      omega

theorem hexDecodeCore_replicate_zero (m : Nat) :
    hexDecodeCore (List.replicate m (Char.ofNat 48)) 0 = some 0 := by
  induction m with
  | zero => rfl
  | succ m ih => simpa [List.replicate_succ, hexDecodeCore, hexCharVal] using ih

/-! ### String-level codecs for `U64` quantities, fixed-width hashes and byte strings -/

/-- Minimal `0x`-prefixed hex quantity (how ethers serializes `U64`). -/
def encodeQuantity (n : Nat) : String :=
  "0x" ++ String.mk (if n = 0 then [Char.ofNat 48] else natToHexCore n)

/-- Strip a leading `0x` from a character list, `none` when absent. -/
def stripHexMark : List Char → Option (List Char)
  | c₁ :: c₂ :: rest => if c₁ = '0' ∧ c₂ = 'x' then some rest else none
  | _ => none

theorem stripHexMark_cons (rest : List Char) :
    stripHexMark ('0' :: 'x' :: rest) = some rest := by
  simp [stripHexMark]

/-- Parse a `0x`-prefixed hex quantity. -/
def decodeQuantity (s : String) : Option Nat :=
  match stripHexMark s.data with
  | some rest => if rest.isEmpty then none else hexDecodeCore rest 0
  | none => none

/-- Fixed-width `0x`-prefixed hex (how ethers serializes `H256` with
`w = 64`, `Address`/`H160` with `w = 40`). -/
def encodeFixedHex (w n : Nat) : String :=
  "0x" ++ String.mk (List.replicate (w - (natToHexCore n).length) (Char.ofNat 48)
    ++ natToHexCore n)

/-- Parse a fixed-width `0x`-prefixed hex value (exact digit count required). -/
def decodeFixedHex (w : Nat) (s : String) : Option Nat :=
  match stripHexMark s.data with
  | some rest => if rest.length = w then hexDecodeCore rest 0 else none
  | none => none

/-- Two hex digits per byte, most significant nibble first (ethers `Bytes`). -/
def bytesToHex (bs : List Nat) : List Char :=
  bs.foldr (fun b acc => hexDigitChar (b / 16) :: hexDigitChar (b % 16) :: acc) []

/-- Parse pairs of hex digits back into bytes. -/
def hexPairsDecode : List Char → Option (List Nat)
  | [] => some []
  | [_] => none
  | c₁ :: c₂ :: rest =>
    match hexCharVal c₁, hexCharVal c₂, hexPairsDecode rest with
    | some v₁, some v₂, some bs => some ((v₁ * 16 + v₂) :: bs)
    | _, _, _ => none

/-- `0x`-prefixed hex of a byte string. -/
def encodeBytesHex (bs : List Nat) : String :=
  "0x" ++ String.mk (bytesToHex bs)

/-- Parse a `0x`-prefixed byte string. -/
def decodeBytesHex (s : String) : Option (List Nat) :=
  match stripHexMark s.data with
  | some rest => hexPairsDecode rest
  | none => none

theorem natToHexCore_ne_nil {n : Nat} (h : n ≠ 0) : natToHexCore n ≠ [] := by
  rw [natToHexCore_pos h]
  simp

theorem decodeQuantity_encodeQuantity (n : Nat) :
    decodeQuantity (encodeQuantity n) = some n := by
  by_cases h : n = 0
  · subst h; rfl
  · have hdata : (encodeQuantity n).data = '0' :: 'x' :: natToHexCore n := by
      simp [encodeQuantity, h, String.data_append]
    rw [decodeQuantity, hdata, stripHexMark_cons]
    have hne : natToHexCore n ≠ [] := natToHexCore_ne_nil h
    have hemp : (natToHexCore n).isEmpty = false := by
      cases hx : natToHexCore n with
      | nil => exact absurd hx hne
      | cons a l => rfl
    simp only [hemp, Bool.false_eq_true, if_false, hexDecodeCore_natToHexCore]
    simp

theorem decodeFixedHex_encodeFixedHex {w n : Nat} (h : n < 16 ^ w) :
    decodeFixedHex w (encodeFixedHex w n) = some n := by
  have hlen : (natToHexCore n).length ≤ w := natToHexCore_length_le h
  have hdata : (encodeFixedHex w n).data =
      '0' :: 'x' :: (List.replicate (w - (natToHexCore n).length) (Char.ofNat 48)
        ++ natToHexCore n) := by
    simp [encodeFixedHex, String.data_append]
  rw [decodeFixedHex, hdata, stripHexMark_cons]
  have hlens : (List.replicate (w - (natToHexCore n).length) (Char.ofNat 48)
      ++ natToHexCore n).length = w := by
    simp [List.length_append, List.length_replicate]
    omega
  simp only [hlens, if_pos, if_true]
  rw [hexDecodeCore_append, hexDecodeCore_replicate_zero]
  show hexDecodeCore (natToHexCore n) 0 = some n
  rw [hexDecodeCore_natToHexCore]
  simp

theorem hexPairsDecode_bytesToHex {bs : List Nat} (h : ∀ b ∈ bs, b < 256) :
    hexPairsDecode (bytesToHex bs) = some bs := by
  induction bs with
  | nil => rfl
  | cons b rest ih =>
    have hb : b < 256 := h b (List.mem_cons_self b rest)
    have hrest := ih (fun x hx => h x (List.mem_cons_of_mem b hx))
    have hdivlt : b / 16 < 16 := by omega
    have hmodlt : b % 16 < 16 := Nat.mod_lt b (by decide)
    simp only [bytesToHex] at hrest ⊢
    simp only [List.foldr_cons, hexPairsDecode, hexCharVal_hexDigitChar hdivlt,
      hexCharVal_hexDigitChar hmodlt, hrest]
    congr 2
    omega

theorem decodeBytesHex_encodeBytesHex {bs : List Nat} (h : ∀ b ∈ bs, b < 256) :
    decodeBytesHex (encodeBytesHex bs) = some bs := by
  have hdata : (encodeBytesHex bs).data = '0' :: 'x' :: bytesToHex bs := by
    simp [encodeBytesHex, String.data_append]
  rw [decodeBytesHex, hdata, stripHexMark_cons]
  show hexPairsDecode (bytesToHex bs) = some bs
  rw [hexPairsDecode_bytesToHex h]

/-! ### A model of JSON values -/

/-- JSON values, as produced by serde for the matchmaker wire types.
Objects keep their fields in serialization order. -/
inductive Json where
  | str : String → Json
  | num : Nat → Json
  | bool : Bool → Json
  | arr : List Json → Json
  | obj : List (String × Json) → Json

/-- Field lookup in a serde JSON object (first match wins). -/
def jsonLookup (key : String) : List (String × Json) → Option Json
  | [] => none
  | (k, v) :: rest => if key = k then some v else jsonLookup key rest

/-! ### Matchmaker wire types (`crates/clients/matchmaker/src/types.rs`) -/

/-- The version of the MEV-share API to use. -/
inductive ProtocolVersion where
  | Beta1
  | V0_1
deriving DecidableEq

/-- Data used by block builders to check if the bundle should be considered
for inclusion. -/
structure Inclusion where
  block : Nat
  max_block : Option Nat
deriving DecidableEq

/-- A bundle tx, which can either be a transaction hash, or a full tx. -/
inductive BundleTx where
  | TxHash (hash : Nat)
  | Tx (tx : List Nat) ( can_revert : Bool)
deriving DecidableEq

/-- Minimum percent of a bundle's earnings to redistribute. -/
structure Refund where
  body_idx : Nat
  percent : Nat
deriving DecidableEq

/-- Addresses receiving a share of the overall refund. -/
structure RefundConfig where
  address : Nat
  percent : Nat
deriving DecidableEq

/-- Requirements for the bundle to be included in the block. -/
structure Validity where
  refund : Option (List Refund)
  refund_config : Option (List RefundConfig)
deriving DecidableEq

/-- Hints on what data should be shared about the bundle and its transactions. -/
structure PrivacyHint where
  calldata : Bool
  contract_address : Bool
  logs : Bool
  function_selector : Bool
  hash : Bool
  tx_hash : Bool
deriving DecidableEq

/-- Preferences on what data should be shared about the bundle. -/
structure Privacy where
  hints : Option PrivacyHint
  builders : Option (List Nat)
deriving DecidableEq

/-- A bundle of transactions to send to the matchmaker. -/
structure BundleRequest where
  version : ProtocolVersion
  inclusion : Inclusion
  body : List BundleTx
  validity : Option Validity
  privacy : Option Privacy
deriving DecidableEq

/-- Response from the matchmaker after sending a bundle. -/
structure SendBundleResponse where
  bundle_hash : Nat
deriving DecidableEq

/-- Number of privacy hint flags that are set (`PrivacyHint::num_hints`). -/
def PrivacyHint.num_hints (h : PrivacyHint) : Nat :=
  (if h.calldata then 1 else 0) + (if h.contract_address then 1 else 0) +
  (if h.logs then 1 else 0) + (if h.function_selector then 1 else 0) +
  (if h.hash then 1 else 0) + (if h.tx_hash then 1 else 0)

/-! ### Serde model: serialization of the wire types to `Json`

Field names and ordering follow the `#[derive(Serialize)]` output with
`rename_all = "camelCase"` and `skip_serializing_if = "Option::is_none"`;
`PrivacyHint` follows its hand-written `Serialize` impl (a sequence of
string tags in fixed field order).  Deserialization follows serde
semantics: missing `Option` fields become `None`, the `untagged`
`BundleTx` tries its variants in declaration order. -/

def serializeProtocolVersion : ProtocolVersion → Json
  | .Beta1 => .str "beta-1"
  | .V0_1 => .str "v0.1"

def deserializeProtocolVersion : Json → Option ProtocolVersion
  | .str s =>
    if s = "beta-1" then some .Beta1
    else if s = "v0.1" then some .V0_1
    else none
  | _ => none

def serializeInclusion (i : Inclusion) : Json :=
  .obj ([("block", .str (encodeQuantity i.block))] ++
    match i.max_block with
    | none => []
    | some m => [("maxBlock", .str (encodeQuantity m))])

def deserializeInclusion : Json → Option Inclusion
  | .obj fields =>
    match jsonLookup "block" fields with
    | some (.str s) =>
      match decodeQuantity s with
      | some b =>
        match jsonLookup "maxBlock" fields with
        | none => some { block := b, max_block := none }
        | some (.str ms) =>
          match decodeQuantity ms with
          | some m => some { block := b, max_block := some m }
          | none => none
        | some _ => none
      | none => none
    | _ => none
  | _ => none

def serializeBundleTx : BundleTx → Json
  | .TxHash h => .obj [("hash", .str (encodeFixedHex 64 h))]
  | .Tx tx cr => .obj [("tx", .str (encodeBytesHex tx)), ("canRevert", .bool cr)]

/-- First `untagged` candidate: the `TxHash` variant. -/
def deserializeTxHashVariant : Json → Option BundleTx
  | .obj fields =>
    match jsonLookup "hash" fields with
    | some (.str s) => (decodeFixedHex 64 s).map BundleTx.TxHash
    | _ => none
  | _ => none

/-- Second `untagged` candidate: the `Tx` variant. -/
def deserializeTxVariant : Json → Option BundleTx
  | .obj fields =>
    match jsonLookup "tx" fields, jsonLookup "canRevert" fields with
    | some (.str s), some (.bool cr) =>
      match decodeBytesHex s with
      | some bs => some (.Tx bs cr)
      | none => none
    | _, _ => none
  | _ => none

def deserializeBundleTx (j : Json) : Option BundleTx :=
  match deserializeTxHashVariant j with
  | some t => some t
  | none => deserializeTxVariant j

def serializeRefund (r : Refund) : Json :=
  .obj [("bodyIdx", .num r.body_idx), ("percent", .num r.percent)]

def deserializeRefund : Json → Option Refund
  | .obj fields =>
    match jsonLookup "bodyIdx" fields, jsonLookup "percent" fields with
    | some (.num b), some (.num p) => some { body_idx := b, percent := p }
    | _, _ => none
  | _ => none

def serializeRefundConfig (r : RefundConfig) : Json :=
  .obj [("address", .str (encodeFixedHex 40 r.address)), ("percent", .num r.percent)]

def deserializeRefundConfig : Json → Option RefundConfig
  | .obj fields =>
    match jsonLookup "address" fields, jsonLookup "percent" fields with
    | some (.str s), some (.num p) =>
      match decodeFixedHex 40 s with
      | some a => some { address := a, percent := p }
      | none => none
    | _, _ => none
  | _ => none

/-- Deserialize every element of a JSON array, failing when any fails. -/
def deserializeList {α : Type} (f : Json → Option α) : List Json → Option (List α)
  | [] => some []
  | j :: js =>
    match f j, deserializeList f js with
    | some a, some rest => some (a :: rest)
    | _, _ => none

def serializeValidity (v : Validity) : Json :=
  .obj ((match v.refund with
         | none => []
         | some rs => [("refund", .arr (rs.map serializeRefund))]) ++
        (match v.refund_config with
         | none => []
         | some rcs => [("refundConfig", .arr (rcs.map serializeRefundConfig))]))

def deserializeValidity : Json → Option Validity
  | .obj fields =>
    match (match jsonLookup "refund" fields with
           | none => some none
           | some (.arr items) => (deserializeList deserializeRefund items).map some
           | some _ => none),
          (match jsonLookup "refundConfig" fields with
           | none => some none
           | some (.arr items) => (deserializeList deserializeRefundConfig items).map some
           | some _ => none) with
    | some r, some rc => some { refund := r, refund_config := rc }
    | _, _ => none
  | _ => none

/-- The all-false `PrivacyHint` (`PrivacyHint::default()`). -/
def privacyHintAllFalse : PrivacyHint :=
  { calldata := false, contract_address := false, logs := false
    function_selector := false, hash := false, tx_hash := false }

def serializePrivacyHint (h : PrivacyHint) : Json :=
  .arr ((if h.calldata then [Json.str "calldata"] else []) ++
        (if h.contract_address then [Json.str "contract_address"] else []) ++
        (if h.logs then [Json.str "logs"] else []) ++
        (if h.function_selector then [Json.str "function_selector"] else []) ++
        (if h.hash then [Json.str "hash"] else []) ++
        (if h.tx_hash then [Json.str "tx_hash"] else []))

/-- One step of the hand-written `Deserialize` loop for `PrivacyHint`:
set the flag named by the tag, or fail on an unknown tag. -/
def applyPrivacyHintTag (ph : PrivacyHint) (s : String) : Option PrivacyHint :=
  if s = "calldata" then some { ph with calldata := true }
  else if s = "contract_address" then some { ph with contract_address := true }
  else if s = "logs" then some { ph with logs := true }
  else if s = "function_selector" then some { ph with function_selector := true }
  else if s = "hash" then some { ph with hash := true }
  else if s = "tx_hash" then some { ph with tx_hash := true }
  else none

def applyPrivacyHintTags : PrivacyHint → List String → Option PrivacyHint
  | ph, [] => some ph
  | ph, s :: rest =>
    match applyPrivacyHintTag ph s with
    | some ph' => applyPrivacyHintTags ph' rest
    | none => none

/-- Extract a `Vec<String>` from a JSON array. -/
def jsonStrings : List Json → Option (List String)
  | [] => some []
  | .str s :: rest => (jsonStrings rest).map (s :: ·)
  | _ :: _ => none

def deserializePrivacyHint : Json → Option PrivacyHint
  | .arr items =>
    match jsonStrings items with
    | some tags => applyPrivacyHintTags privacyHintAllFalse tags
    | none => none
  | _ => none

def serializePrivacy (p : Privacy) : Json :=
  .obj ((match p.hints with
         | none => []
         | some h => [("hints", serializePrivacyHint h)]) ++
        (match p.builders with
         | none => []
         | some bs => [("builders", .arr (bs.map (fun a => Json.str (encodeFixedHex 40 a))))]))

def deserializeAddress : Json → Option Nat
  | .str s => decodeFixedHex 40 s
  | _ => none

def deserializePrivacy : Json → Option Privacy
  | .obj fields =>
    match (match jsonLookup "hints" fields with
           | none => some none
           | some j => (deserializePrivacyHint j).map some),
          (match jsonLookup "builders" fields with
           | none => some none
           | some (.arr items) => (deserializeList deserializeAddress items).map some
           | some _ => none) with
    | some h, some bs => some { hints := h, builders := bs }
    | _, _ => none
  | _ => none

def serializeBundleRequest (b : BundleRequest) : Json :=
  .obj ([("version", serializeProtocolVersion b.version),
         ("inclusion", serializeInclusion b.inclusion),
         ("body", .arr (b.body.map serializeBundleTx))] ++
        (match b.validity with
         | none => []
         | some v => [("validity", serializeValidity v)]) ++
        (match b.privacy with
         | none => []
         | some p => [("privacy", serializePrivacy p)]))

def deserializeBundleRequest : Json → Option BundleRequest
  | .obj fields =>
    match (match jsonLookup "version" fields with
           | some j => deserializeProtocolVersion j
           | none => none),
          (match jsonLookup "inclusion" fields with
           | some j => deserializeInclusion j
           | none => none),
          (match jsonLookup "body" fields with
           | some (.arr items) => deserializeList deserializeBundleTx items
           | _ => none),
          (match jsonLookup "validity" fields with
           | none => some none
           | some j => (deserializeValidity j).map some),
          (match jsonLookup "privacy" fields with
           | none => some none
           | some j => (deserializePrivacy j).map some) with
    | some v, some i, some b, some va, some pr =>
      some { version := v, inclusion := i, body := b, validity := va, privacy := pr }
    | _, _, _, _, _ => none
  | _ => none

/-! ### `BundleRequest::new` and `BundleRequest::make_simple` -/

/-- `H160`'s `FromStr` (the fixed-hash impl behind ethers' `Address`):
strip an optional `0x`, decode the hex digits, and require exactly 40 of
them (20 bytes) — shorter literals such as `"0x40"` are rejected with an
invalid-length error. -/
def h160FromStr (s : String) : Option Nat :=
  let digits :=
    match stripHexMark s.data with
    | some rest => rest
    | none => s.data
  if digits.length = 40 then hexDecodeCore digits 0 else none

/-- The panic message of `Address::from_str(..).unwrap()` on a literal
that fails the `H160` length check. -/
def hexLengthPanic : String :=
  "called Result::unwrap() on an Err value: InvalidHexLength"

/-- The refund address literal `BundleRequest::new` parses: two hex
digits, which `H160::from_str` rejects. -/
def refundAddressStr : String := "0x40"

/-- The builder allow-list literals `BundleRequest::new` parses (rsync,
builder0x69, beaverbuild, Flashbots, Titan); each has the full 40 hex
digits and parses fine. -/
def builderAllowListStrs : List String :=
  ["0x1f9090aaE28b8a3dCeaDf281B0F12828e676c326",
   "0x690B9A9E9aa1C9dB991C7721a92d351Db4FaC990",
   "0x95222290DD7278Aa3Ddd389Cc1E1d165CC4BAfe5",
   "0xDAFEA492D9c6733ae3d56b7Ed1ADB60692c98Bc5",
   "0x4838B106FCe9647Bdf1E7877BF73cE8B0BAD5f97"]

/-- The numeric values of the builder allow-list literals. -/
def builderAllowList : List Nat :=
  [0x1f9090aaE28b8a3dCeaDf281B0F12828e676c326,
   0x690B9A9E9aa1C9dB991C7721a92d351Db4FaC990,
   0x95222290DD7278Aa3Ddd389Cc1E1d165CC4BAfe5,
   0xDAFEA492D9c6733ae3d56b7Ed1ADB60692c98Bc5,
   0x4838B106FCe9647Bdf1E7877BF73cE8B0BAD5f97]

/-- `BundleRequest::new`: builds a bundle with the given inclusion data
and body, a hard-coded validity (refund config only) and a hard-coded
privacy (all-false hints, fixed builder allow-list).  Every hard-coded
address is `Address::from_str(..).unwrap()`: the refund address literal
`"0x40"` fails `H160`'s 40-digit length check, so the constructor panics
(modelled as `Except.error`) while evaluating `validity`, before
`privacy`'s builder parses and before any bundle is returned. -/
def BundleRequest.new (block_num : Nat) (max_block : Option Nat)
    (version : ProtocolVersion) (transactions : List BundleTx) :
    Except String BundleRequest :=
  match h160FromStr refundAddressStr with
  | none => .error hexLengthPanic
  | some refundAddr =>
    match builderAllowListStrs.mapM h160FromStr with
    | none => .error hexLengthPanic
    | some builders =>
      .ok { version := version
            inclusion := { block := block_num, max_block := max_block }
            body := transactions
            validity := some
              { refund := none
                refund_config := some [{ address := refundAddr, percent := 30 }] }
            privacy := some
              { hints := some privacyHintAllFalse
                builders := some builders } }

/-- Largest `U64` value, the clamp of `U64::saturating_add`. -/
def u64Max : Nat := 2 ^ 64 - 1

/-- `U64::saturating_add` on the `Nat` model. -/
def u64SaturatingAdd (a b : Nat) : Nat := min (a + b) u64Max

/-- `BundleRequest::make_simple`: inclusion window
`[block_num, block_num.saturating_add(30)]`, protocol version `Beta1`;
inherits `new`'s panic. -/
def BundleRequest.make_simple (block_num : Nat) (transactions : List BundleTx) :
    Except String BundleRequest :=
  BundleRequest.new block_num (some (u64SaturatingAdd block_num 30))
    ProtocolVersion.Beta1 transactions

/-! ### Strategy embedding (`crates/strategies/mev-share-uni-arb/src/strategy.rs`)

The node middleware (`get_gas_price`, `get_block_number`,
`fill_transaction`) and the transaction signer (`sign_transaction` plus
`rlp_signed`) are external collaborators; they enter the embedding as an
explicit environment of collaborator functions.  Rust panics (`unwrap` on
`Err`/`None` results, `U64` addition overflow) are modelled as
`Except.error`. -/

/-- Information about a uniswap v2 pool. -/
structure V2PoolInfo where
  v2_pool : Nat
  is_weth_token0 : Bool
deriving DecidableEq

/-- A partially-redacted log entry of an MEV-share disclosure: only the
contract address is relevant to the strategy. -/
structure MevShareLog where
  address : Nat
deriving DecidableEq

/-- An MEV-share order-flow disclosure: the transaction hash being backrun
and its (possibly empty) list of log entries. -/
structure MevShareEvent where
  hash : Nat
  logs : List MevShareLog
deriving DecidableEq

/-- The strategy's unified event type (one variant). -/
inductive UniArb.Event where
  | MEVShareEvent (e : MevShareEvent)
deriving DecidableEq

/-- The candidate arbitrage transaction being assembled for one ladder
rung: the `make_flash_loan` contract call (`to_address` is the `to` field
of the Rust `TypedTransaction`) plus the gas fields set on it and the
transient fields filled by the node. -/
structure TxRequest where
  to_address : Nat
  tokens : List Nat
  amounts : List Nat
  user_data : Bool × Nat × Nat × Nat × Nat
  gas : Option Nat
  gas_price : Option Nat
  nonce : Option Nat
deriving DecidableEq

/-- The strategy's unified action type (one variant). -/
inductive UniArb.Action where
  | SubmitBundles (bundles : List BundleRequest)

/-- External collaborators of `generate_bundles`: the values fetched from
the node and the fallible fill/sign capabilities.  `fill` returns the
transaction with transient fields filled, or a node error; `signBytes` is
`sign_transaction` followed by `rlp_signed`, `none` when the signer errors. -/
structure Env where
  gasPrice : Nat
  blockNumber : Nat
  fill : TxRequest → Except String TxRequest
  signBytes : TxRequest → Option (List Nat)

/-- Strategy-private state: the pool reference table (modelled as an
association list with first-match lookup) and the arb contract address. -/
structure StrategyState where
  poolMap : List (Nat × V2PoolInfo)
  arbContract : Nat

/-- WETH, the hard-coded flash-loan token. -/
def wethAddress : Nat := 0xC02aaA39b223FE8D0A0e5C4F27eAD9083C756Cc2

/-- The hard-coded `payment_percentage` of `generate_bundles`. -/
def paymentPercentage : Nat := 40

/-- The fixed geometric ladder of candidate input sizes. -/
def ladderSizes : List Nat :=
  [100000, 1000000, 10000000, 100000000, 1000000000, 10000000000,
   100000000000, 1000000000000, 10000000000000, 100000000000000,
   1000000000000000, 10000000000000000, 100000000000000000,
   1000000000000000000]

/-- The `make_flash_loan` call built for one ladder rung: two mutually
exclusive shapes differing in the leading boolean of the ABI-encoded
user data, selected by `is_weth_token0`. -/
def mkArbTx (arb : Nat) (v2Info : V2PoolInfo) (v3Address size : Nat) : TxRequest :=
  match v2Info.is_weth_token0 with
  | true =>
    { to_address := arb
      tokens := [wethAddress]
      amounts := [size]
      user_data := (true, v2Info.v2_pool, v3Address, size, paymentPercentage)
      gas := none, gas_price := none, nonce := none }
  | false =>
    { to_address := arb
      tokens := [wethAddress]
      amounts := [size]
      user_data := (false, v2Info.v2_pool, v3Address, size, paymentPercentage)
      gas := none, gas_price := none, nonce := none }

/-- The candidate transaction of one ladder rung, right before
`fill_transaction`: the `make_flash_loan` call with the fixed gas limit
and the fetched gas price set on it. -/
def rungTx (env : Env) (arb : Nat) (v2Info : V2PoolInfo) (v3Address size : Nat) :
    TxRequest :=
  { mkArbTx arb v2Info v3Address size with
    gas := some 400000, gas_price := some env.gasPrice }

/-- The per-rung loop body of `generate_bundles`, iterated over the ladder
sizes.  A fill failure skips the rung (`continue`); a signer failure is an
unguarded `unwrap`, i.e. a panic that aborts the whole iteration; the
`block_num.add(1)` overflow panic of the `uint` crate and the panic
inside `BundleRequest::make_simple` (see `BundleRequest.new`) are also
modelled. -/
def genBundlesLoop (env : Env) (arb : Nat) (v2Info : V2PoolInfo)
    (v3Address txHash : Nat) : List Nat → Except String (List BundleRequest)
  | [] => .ok []
  | size :: rest =>
    match env.fill (rungTx env arb v2Info v3Address size) with
    | .error _ => genBundlesLoop env arb v2Info v3Address txHash rest
    | .ok filled =>
      match env.signBytes filled with
      | none => .error "called Result::unwrap() on an Err value: signer error"
      | some bytes =>
        if env.blockNumber + 1 < 2 ^ 64 then
          let txs := [BundleTx.TxHash txHash, BundleTx.Tx bytes false]
          match BundleRequest.make_simple (env.blockNumber + 1) txs with
          | .error e => .error e
          | .ok bundle =>
            match genBundlesLoop env arb v2Info v3Address txHash rest with
            | .error e => .error e
            | .ok bs => .ok (bundle :: bs)
        else .error "arithmetic operation overflow"

/-- `generate_bundles`: look the pool up (`get(..).unwrap()` panics when
absent) and run the ladder. -/
def generateBundles (env : Env) (st : StrategyState) (v3Address txHash : Nat) :
    Except String (List BundleRequest) :=
  match st.poolMap.lookup v3Address with
  | none => .error "called Option::unwrap() on a None value"
  | some v2Info => genBundlesLoop env st.arbContract v2Info v3Address txHash ladderSizes

/-- `process_event`: skip events with no logs, skip addresses missing from
the pool table, otherwise emit `Action::SubmitBundles` with the generated
ladder.  The `Except` layer carries the panics `generate_bundles` can
raise. -/
def processEvent (env : Env) (st : StrategyState) (event : UniArb.Event) :
    Except String (Option UniArb.Action) :=
  match event with
  | .MEVShareEvent e =>
    match e.logs with
    | [] => .ok none
    | l₀ :: _ =>
      if (st.poolMap.lookup l₀.address).isSome then
        match generateBundles env st l₀.address e.hash with
        | .error err => .error err
        | .ok bundles => .ok (some (UniArb.Action.SubmitBundles bundles))
      else .ok none

/-! ### MEV-share executor
(`crates/artemis-core/src/executors/mev_share_executor.rs`) -/

/-- What the executor does with each per-bundle submission outcome:
`Ok` responses are logged at info level, errors at error level; neither is
re-raised. -/
inductive SubmissionLog where
  | response (r : SendBundleResponse)
  | failure (e : String)
deriving DecidableEq

/-- `MevshareExecutor::execute`: submit every bundle of the action through
the matchmaker client (`send` is `Client::send_bundle`), log each outcome,
and return `Ok(())` unconditionally. -/
def mevshareExecute (send : BundleRequest → Except String SendBundleResponse)
    (action : List BundleRequest) : List SubmissionLog × Except String Unit :=
  (action.map (fun bundle =>
      match send bundle with
      | .ok r => SubmissionLog.response r
      | .error e => SubmissionLog.failure e),
   .ok ())

/-- The relay registry of `get_all_mev_share_endpoints`: one
`MevshareExecutor` is built per `(name, url)` entry, in order. -/
def mevShareEndpoints : List (String × String) :=
  [("flashbots", "https://relay.flashbots.net/"),
   ("builder0x69", "http://builder0x69.io/"),
   ("edennetwork", "https://api.edennetwork.io/v1/bundle"),
   ("beaverbuild", "https://rpc.beaverbuild.org/"),
   ("lightspeedbuilder", "https://rpc.lightspeedbuilder.info/"),
   ("eth-builder", "https://eth-builder.com/"),
   ("ultrasound", "https://relay.ultrasound.money/"),
   ("agnostic-relay", "https://agnostic-relay.net/"),
   ("relayoor-wtf", "https://relayooor.wtf/"),
   ("rsync-builder", "https://rsync-builder.xyz/")]

/-- `get_all_mev_share_endpoints`: eagerly build one executor per registry
entry, preserving registry order (`mk` stands for `MevshareExecutor::new`
applied to the shared signer and chain). -/
def getAllMevShareEndpoints {α : Type} (mk : String → String → α) : List α :=
  mevShareEndpoints.map (fun p => mk p.1 p.2)

/-! ### Round-trip lemmas for the serde model -/

theorem deserializeProtocolVersion_roundtrip (v : ProtocolVersion) :
    deserializeProtocolVersion (serializeProtocolVersion v) = some v := by
  cases v <;> rfl

theorem jsonLookup_cons_self (k : String) (v : Json) (rest : List (String × Json)) :
    jsonLookup k ((k, v) :: rest) = some v := by
  simp [jsonLookup]

theorem jsonLookup_cons_ne {k k' : String} (h : k ≠ k') (v : Json)
    (rest : List (String × Json)) :
    jsonLookup k ((k', v) :: rest) = jsonLookup k rest := by
  simp [jsonLookup, h]

theorem deserializeInclusion_roundtrip (i : Inclusion) :
    deserializeInclusion (serializeInclusion i) = some i := by
  cases i with
  | mk b mb =>
    cases mb with
    | none =>
      simp [serializeInclusion, deserializeInclusion, jsonLookup,
        decodeQuantity_encodeQuantity]
    | some m =>
      simp [serializeInclusion, deserializeInclusion, jsonLookup,
        decodeQuantity_encodeQuantity]

/-- Wellformedness of the `Nat`-modelled leaves of a `BundleTx`: hashes fit
in an `H256`, signed bytes are bytes. -/
def wfBundleTx : BundleTx → Bool
  | .TxHash h => decide (h < 2 ^ 256)
  | .Tx tx _ => tx.all (fun b => decide (b < 256))

theorem deserializeBundleTx_roundtrip {t : BundleTx} (hwf : wfBundleTx t = true) :
    deserializeBundleTx (serializeBundleTx t) = some t := by
  cases t with
  | TxHash h =>
    have hlt : h < 16 ^ 64 := by
      have := of_decide_eq_true hwf
      simpa using this
    simp [serializeBundleTx, deserializeBundleTx, deserializeTxHashVariant,
      jsonLookup, decodeFixedHex_encodeFixedHex hlt]
  | Tx tx cr =>
    have hbytes : ∀ b ∈ tx, b < 256 := by
      simp only [wfBundleTx, List.all_eq_true, decide_eq_true_eq] at hwf
      exact hwf
    simp [serializeBundleTx, deserializeBundleTx, deserializeTxHashVariant,
      deserializeTxVariant, jsonLookup, decodeBytesHex_encodeBytesHex hbytes]

theorem deserializeRefund_roundtrip (r : Refund) :
    deserializeRefund (serializeRefund r) = some r := by
  cases r
  simp [serializeRefund, deserializeRefund, jsonLookup]

theorem deserializeRefundConfig_roundtrip {r : RefundConfig}
    (h : r.address < 2 ^ 160) :
    deserializeRefundConfig (serializeRefundConfig r) = some r := by
  have hlt : r.address < 16 ^ 40 := by simpa using h
  cases r
  simp_all [serializeRefundConfig, deserializeRefundConfig, jsonLookup,
    decodeFixedHex_encodeFixedHex hlt]

theorem deserializeList_map {α : Type} {f : Json → Option α} {g : α → Json}
    {l : List α} (h : ∀ x ∈ l, f (g x) = some x) :
    deserializeList f (l.map g) = some l := by
  induction l with
  | nil => rfl
  | cons x xs ih =>
    simp only [List.map_cons, deserializeList,
      h x (List.mem_cons_self x xs),
      ih (fun y hy => h y (List.mem_cons_of_mem x hy))]

/-- Wellformedness of the `Nat`-modelled refund addresses of a `Validity`. -/
def wfValidity (v : Validity) : Bool :=
  match v.refund_config with
  | none => true
  | some rcs => rcs.all (fun rc => decide (rc.address < 2 ^ 160))

theorem deserializeValidity_roundtrip {v : Validity} (hwf : wfValidity v = true) :
    deserializeValidity (serializeValidity v) = some v := by
  cases v with
  | mk refund rc =>
    have hrc : ∀ rcs, rc = some rcs →
        deserializeList deserializeRefundConfig (rcs.map serializeRefundConfig) =
          some rcs := by
      intro rcs heq
      apply deserializeList_map
      intro x hx
      apply deserializeRefundConfig_roundtrip
      subst heq
      simp only [wfValidity, List.all_eq_true, decide_eq_true_eq] at hwf
      exact hwf x hx
    have hr : ∀ rs, refund = some rs →
        deserializeList deserializeRefund (rs.map serializeRefund) = some rs := by
      intro rs _
      exact deserializeList_map (fun x _ => deserializeRefund_roundtrip x)
    cases refund with
    | none =>
      cases rc with
      | none => rfl
      | some rcs =>
        simp [serializeValidity, deserializeValidity, jsonLookup, hrc rcs rfl]
    | some rs =>
      cases rc with
      | none =>
        simp [serializeValidity, deserializeValidity, jsonLookup, hr rs rfl]
      | some rcs =>
        simp [serializeValidity, deserializeValidity, jsonLookup, hr rs rfl,
          hrc rcs rfl]

theorem deserializePrivacyHint_roundtrip (h : PrivacyHint) :
    deserializePrivacyHint (serializePrivacyHint h) = some h := by
  cases h with
  | mk c ca l fs hs t =>
    cases c <;> cases ca <;> cases l <;> cases fs <;> cases hs <;> cases t <;> rfl

/-- Wellformedness of the `Nat`-modelled builder addresses of a `Privacy`. -/
def wfPrivacy (p : Privacy) : Bool :=
  match p.builders with
  | none => true
  | some bs => bs.all (fun a => decide (a < 2 ^ 160))

theorem deserializePrivacy_roundtrip {p : Privacy} (hwf : wfPrivacy p = true) :
    deserializePrivacy (serializePrivacy p) = some p := by
  cases p with
  | mk hints builders =>
    have hbs : ∀ bs, builders = some bs →
        deserializeList deserializeAddress
          (bs.map (fun a => Json.str (encodeFixedHex 40 a))) = some bs := by
      intro bs heq
      apply deserializeList_map
      intro a ha
      subst heq
      simp only [wfPrivacy, List.all_eq_true, decide_eq_true_eq] at hwf
      have hlt : a < 16 ^ 40 := by simpa using hwf a ha
      simp [deserializeAddress, decodeFixedHex_encodeFixedHex hlt]
    cases hints with
    | none =>
      cases builders with
      | none => rfl
      | some bs =>
        simp [serializePrivacy, deserializePrivacy, jsonLookup, hbs bs rfl]
    | some hint =>
      cases builders with
      | none =>
        simp [serializePrivacy, deserializePrivacy, jsonLookup,
          deserializePrivacyHint_roundtrip hint]
      | some bs =>
        simp [serializePrivacy, deserializePrivacy, jsonLookup, hbs bs rfl,
          deserializePrivacyHint_roundtrip hint]

/-- Wellformedness of the `Nat`-modelled leaves of a whole `BundleRequest`. -/
def wfBundleRequest (b : BundleRequest) : Bool :=
  b.body.all wfBundleTx &&
  (match b.validity with
   | none => true
   | some v => wfValidity v) &&
  (match b.privacy with
   | none => true
   | some p => wfPrivacy p)

theorem deserializeBundleRequest_roundtrip {b : BundleRequest}
    (hwf : wfBundleRequest b = true) :
    deserializeBundleRequest (serializeBundleRequest b) = some b := by
  cases b with
  | mk version inclusion body validity privacy =>
    simp only [wfBundleRequest, Bool.and_eq_true, List.all_eq_true] at hwf
    obtain ⟨⟨hbody, hval⟩, hpriv⟩ := hwf
    have hbodyRT : deserializeList deserializeBundleTx (body.map serializeBundleTx) =
        some body :=
      deserializeList_map (fun t ht => deserializeBundleTx_roundtrip (hbody t ht))
    cases validity with
    | none =>
      cases privacy with
      | none =>
        simp [serializeBundleRequest, deserializeBundleRequest, jsonLookup,
          deserializeProtocolVersion_roundtrip, deserializeInclusion_roundtrip,
          hbodyRT]
      | some p =>
        simp only at hpriv
        simp [serializeBundleRequest, deserializeBundleRequest, jsonLookup,
          deserializeProtocolVersion_roundtrip, deserializeInclusion_roundtrip,
          hbodyRT, deserializePrivacy_roundtrip hpriv]
    | some v =>
      simp only at hval
      cases privacy with
      | none =>
        simp [serializeBundleRequest, deserializeBundleRequest, jsonLookup,
          deserializeProtocolVersion_roundtrip, deserializeInclusion_roundtrip,
          hbodyRT, deserializeValidity_roundtrip hval]
      | some p =>
        simp only at hpriv
        simp [serializeBundleRequest, deserializeBundleRequest, jsonLookup,
          deserializeProtocolVersion_roundtrip, deserializeInclusion_roundtrip,
          hbodyRT, deserializeValidity_roundtrip hval,
          deserializePrivacy_roundtrip hpriv]

/-! ### Lemmas about the ladder loop -/

/-- The `continue` on a fill failure, in isolation: a rung whose fill
errors is skipped and the loop's outcome on `size :: rest` is exactly its
outcome on `rest` — nothing the remaining rungs would return is removed,
and the fill error itself never becomes the result. -/
theorem genBundlesLoop_fill_error_skip {env : Env} {arb : Nat} {v2Info : V2PoolInfo}
    {v3Address txHash size : Nat} {e : String} (rest : List Nat)
    (hfill : env.fill (rungTx env arb v2Info v3Address size) = .error e) :
    genBundlesLoop env arb v2Info v3Address txHash (size :: rest) =
      genBundlesLoop env arb v2Info v3Address txHash rest := by
  simp only [genBundlesLoop, hfill]

/-! ### Concrete collaborator fixtures used by the witnesses -/

/-- A node/signer environment in which every call succeeds. -/
def envAllOk : Env :=
  { gasPrice := 5, blockNumber := 100,
    fill := fun tx => .ok tx, signBytes := fun _ => some [171] }

/-- An environment whose signer always fails (fill succeeds). -/
def envSignFail : Env :=
  { gasPrice := 5, blockNumber := 100,
    fill := fun tx => .ok tx, signBytes := fun _ => none }

/-- An environment whose node always fails to fill (signer succeeds). -/
def envFillFail : Env :=
  { gasPrice := 5, blockNumber := 100,
    fill := fun _ => .error "nonce unavailable", signBytes := fun _ => some [171] }

/-- An environment failing to fill exactly the first (`10^5`) ladder
rung, succeeding on every other. -/
def envFillFirst : Env :=
  { gasPrice := 5, blockNumber := 100,
    fill := fun tx => if tx.amounts = [100000] then .error "nonce unavailable" else .ok tx,
    signBytes := fun _ => some [171] }

/-- A pool table with one entry: v3 pool `7` ↦ v2 pool `8`, WETH is token0. -/
def stTest : StrategyState :=
  { poolMap := [(7, { v2_pool := 8, is_weth_token0 := true })], arbContract := 9 }

/-- A sample bundle value (a plain literal) used by the executor witness. -/
def bundleTest : BundleRequest :=
  { version := ProtocolVersion.Beta1
    inclusion := { block := 101, max_block := some 131 }
    body := [BundleTx.TxHash 42, BundleTx.Tx [171] false]
    validity := none
    privacy := none }

/-! ### Claim theorems -/

/-- C1: the claim fails on the code.  With the pool present in the
reference table (`is_weth_token0 = true`), the node filling and the
signer succeeding, `generate_bundles` does not return 14 bundles: the
first ladder rung's `BundleRequest::make_simple` reaches
`Address::from_str("0x40").unwrap()` inside `BundleRequest::new`, the
two-digit literal fails `H160`'s 40-hex-digit length check, and the
`unwrap` panics before any bundle is returned. -/
theorem generateBundles_first_rung_constructor_panic :
    h160FromStr refundAddressStr = none ∧
    generateBundles envAllOk stTest 7 42 = .error hexLengthPanic :=
  ⟨rfl, rfl⟩

/-- C2: `process_event` returns no action — and no error — for an event
with an empty log list, and for an event whose (first) pool address is
absent from the pool reference table, in particular for an empty table. -/
theorem processEvent_none_on_empty_or_miss
    (env : Env) (st : StrategyState) (hsh : Nat) (l₀ : MevShareLog)
    (rest : List MevShareLog) :
    processEvent env st (UniArb.Event.MEVShareEvent { hash := hsh, logs := [] }) =
      .ok none ∧
    (st.poolMap.lookup l₀.address = none →
      processEvent env st
        (UniArb.Event.MEVShareEvent { hash := hsh, logs := l₀ :: rest }) = .ok none) := by
  constructor
  · rfl
  · intro hmiss
    simp [processEvent, hmiss]

/-- C2 witness: empty log list, and a miss (address `1`) against the
one-entry table `stTest`; both yield `Ok(None)`. -/
theorem processEvent_none_on_empty_or_miss_witness :
    stTest.poolMap.lookup 1 = none ∧
    processEvent envAllOk stTest (UniArb.Event.MEVShareEvent { hash := 3, logs := [] }) =
      .ok none ∧
    processEvent envAllOk stTest
      (UniArb.Event.MEVShareEvent { hash := 3, logs := [⟨1⟩] }) = .ok none :=
  ⟨by decide,
   (processEvent_none_on_empty_or_miss envAllOk stTest 3 ⟨1⟩ []).1,
   (processEvent_none_on_empty_or_miss envAllOk stTest 3 ⟨1⟩ []).2 (by decide)⟩

/-- C3: the fill-failure skip itself is in the code — see
`genBundlesLoop_fill_error_skip` — and a ladder whose fills all fail
exits with `Ok` and an empty list, not an error (first conjunct).  But
the claim's conclusion fails on the code: with the `10^5` rung's fill
failing and every later fill succeeding, iteration does continue past
the skipped rung, yet the next rung's bundle packaging panics in
`BundleRequest::new` (the `"0x40"` refund-address parse) — the result is
that panic, not the remaining rungs' bundles (second conjunct: the error
is `hexLengthPanic`, not the fill error, showing the loop moved on). -/
theorem generateBundles_fill_skip_then_constructor_panic :
    generateBundles envFillFail stTest 7 42 = .ok [] ∧
    generateBundles envFillFirst stTest 7 42 = .error hexLengthPanic :=
  ⟨rfl, rfl⟩

/-- C4: the claim quantifies over the bundles `generate_bundles`
produces, but on the code none is ever produced: packaging the
two-element body `[{hash}, {tx, canRevert: false}]` calls
`BundleRequest::make_simple`, which panics on the `"0x40"` refund
address parse before the bundle is pushed — shown both on `make_simple`
directly and at the very input that would otherwise produce the full
ladder. -/
theorem make_simple_panics_before_any_bundle :
    BundleRequest.make_simple 101 [BundleTx.TxHash 42, BundleTx.Tx [171] false] =
      .error hexLengthPanic ∧
    generateBundles envAllOk stTest 7 42 = .error hexLengthPanic :=
  ⟨rfl, rfl⟩

/-- C5: a `BundleRequest` whose body is one `{reference}` element followed
by one `{signed_bytes, can_revert = false}` element serializes to wire
JSON and deserializes back to the identical structure; in particular a
body element `{hash: ..}` deserializes to `TxHash` with that hash, and
`{tx: .., canRevert: false}` deserializes to `Tx` with
`can_revert = false`. -/
theorem bundleRequest_serde_roundtrip
    (b : BundleRequest) (h256 : Nat) (sbytes : List Nat)
    (hbody : b.body = [BundleTx.TxHash h256, BundleTx.Tx sbytes false])
    (hwf : wfBundleRequest b = true) :
    deserializeBundleRequest (serializeBundleRequest b) = some b ∧
    deserializeBundleTx (Json.obj [("hash", Json.str (encodeFixedHex 64 h256))]) =
      some (BundleTx.TxHash h256) ∧
    deserializeBundleTx (Json.obj [("tx", Json.str (encodeBytesHex sbytes)),
      ("canRevert", Json.bool false)]) = some (BundleTx.Tx sbytes false) := by
  have hbodywf : ∀ t ∈ b.body, wfBundleTx t = true := by
    simp only [wfBundleRequest, Bool.and_eq_true, List.all_eq_true] at hwf
    exact hwf.1.1
  have hwf1 : wfBundleTx (BundleTx.TxHash h256) = true := by
    apply hbodywf
    rw [hbody]
    simp
  have hwf2 : wfBundleTx (BundleTx.Tx sbytes false) = true := by
    apply hbodywf
    rw [hbody]
    simp
  refine ⟨deserializeBundleRequest_roundtrip hwf, ?_, ?_⟩
  · exact deserializeBundleTx_roundtrip hwf1
  · exact deserializeBundleTx_roundtrip hwf2

/-- The concrete bundle of the round-trip example: `inclusion.block = 0x1`,
a hash reference, and the signed bytes `0x02f8` with `canRevert: false`. -/
def bundleExample : BundleRequest :=
  { version := ProtocolVersion.V0_1
    inclusion := { block := 1, max_block := none }
    body := [BundleTx.TxHash 0xab, BundleTx.Tx [2, 248] false]
    validity := none
    privacy := none }

/-- C5 witness: the example bundle round-trips. -/
theorem bundleRequest_serde_roundtrip_witness :
    deserializeBundleRequest (serializeBundleRequest bundleExample) =
      some bundleExample ∧
    deserializeBundleTx (Json.obj [("hash", Json.str (encodeFixedHex 64 0xab))]) =
      some (BundleTx.TxHash 0xab) ∧
    deserializeBundleTx (Json.obj [("tx", Json.str (encodeBytesHex [2, 248])),
      ("canRevert", Json.bool false)]) = some (BundleTx.Tx [2, 248] false) :=
  bundleRequest_serde_roundtrip bundleExample 0xab [2, 248] rfl (by decide)

/-- C6: a `PrivacyHint` with only `calldata` and `tx_hash` set serializes
to exactly `["calldata","tx_hash"]` (the fixed field order), and that
array deserializes back to the same flags. -/
theorem privacyHint_fixed_order_roundtrip :
    serializePrivacyHint (⟨true, false, false, false, false, true⟩ : PrivacyHint) =
      Json.arr [Json.str "calldata", Json.str "tx_hash"] ∧
    deserializePrivacyHint (Json.arr [Json.str "calldata", Json.str "tx_hash"]) =
      some (⟨true, false, false, false, false, true⟩ : PrivacyHint) :=
  ⟨rfl, rfl⟩

/-- C7: `MevshareExecutor::execute` attempts one submission per bundle of
the action and returns `Ok(())` whatever the individual outcomes are:
per-bundle errors become log entries, are never re-raised, and do not
stop the remaining submissions. -/
theorem mevshareExecute_tolerates_failures
    (send : BundleRequest → Except String SendBundleResponse)
    (action : List BundleRequest) :
    (mevshareExecute send action).2 = Except.ok () ∧
    (mevshareExecute send action).1.length = action.length ∧
    ∀ b ∈ action,
      (match send b with
       | .ok r => SubmissionLog.response r
       | .error e => SubmissionLog.failure e) ∈ (mevshareExecute send action).1 := by
  refine ⟨rfl, by simp [mevshareExecute], ?_⟩
  intro b hb
  simp only [mevshareExecute]
  exact List.mem_map_of_mem _ hb

/-- A matchmaker client stub whose submission always fails. -/
def sendAlwaysFails : BundleRequest → Except String SendBundleResponse :=
  fun _ => .error "relay rejected"

/-- C7 witness: with an always-failing relay and one bundle, `execute`
still returns `Ok(())` and the failure is only logged. -/
theorem mevshareExecute_tolerates_failures_witness :
    (mevshareExecute sendAlwaysFails [bundleTest]).2 = Except.ok () ∧
    SubmissionLog.failure "relay rejected" ∈
      (mevshareExecute sendAlwaysFails [bundleTest]).1 :=
  ⟨(mevshareExecute_tolerates_failures sendAlwaysFails [bundleTest]).1,
   (mevshareExecute_tolerates_failures sendAlwaysFails [bundleTest]).2.2
     bundleTest (List.mem_cons_self _ _)⟩

/-- C8: a signer failure on a ladder rung is not a skip: the `unwrap`
panics and aborts the whole iteration (modelled as `Except.error`),
whereas a fill failure on every rung still terminates normally with an
empty ladder. -/
theorem generateBundles_signer_failure_aborts :
    generateBundles envSignFail stTest 7 42 =
      .error "called Result::unwrap() on an Err value: signer error" ∧
    generateBundles envFillFail stTest 7 42 = .ok [] :=
  ⟨rfl, rfl⟩

/-- C9: the claim fails on the code: `BundleRequest::new` never installs
the hard-coded validity and privacy, because it panics while evaluating
the `validity` field — `Address::from_str("0x40")` fails `H160`'s
40-digit length check and is `unwrap`ped — so no `BundleRequest` is
constructed at all, for any arguments.  The builder allow-list literals
(which `new` would install next) do parse, and number 5, fewer than the
10-entry relay registry of `get_all_mev_share_endpoints`. -/
theorem bundleRequest_new_refund_address_panic :
    h160FromStr refundAddressStr = none ∧
    (∀ (block_num : Nat) (max_block : Option Nat) (version : ProtocolVersion)
      (txs : List BundleTx),
      BundleRequest.new block_num max_block version txs = .error hexLengthPanic) ∧
    builderAllowListStrs.mapM h160FromStr = some builderAllowList ∧
    builderAllowList.length = 5 ∧
    mevShareEndpoints.length = 10 ∧
    builderAllowList.length < mevShareEndpoints.length :=
  ⟨rfl, fun _ _ _ _ => rfl, by decide, rfl, rfl, by decide⟩

/-- C10: `process_event` inspects only the first log entry: the result is
invariant under replacing all later log entries, and an event whose first
log address misses the table yields no action even when a later log's
address is in the table. -/
theorem processEvent_uses_first_log_only
    (env : Env) (st : StrategyState) (hsh : Nat) (l₀ : MevShareLog)
    (rest rest' : List MevShareLog) :
    processEvent env st
        (UniArb.Event.MEVShareEvent { hash := hsh, logs := l₀ :: rest }) =
      processEvent env st
        (UniArb.Event.MEVShareEvent { hash := hsh, logs := l₀ :: rest' }) ∧
    (st.poolMap.lookup l₀.address = none →
      processEvent env st
        (UniArb.Event.MEVShareEvent { hash := hsh, logs := l₀ :: rest }) =
        .ok none) := by
  constructor
  · rfl
  · intro hmiss
    simp [processEvent, hmiss]

/-- C10 witness: first log address `1` misses the table while the second
log address `7` is in it; the event still yields no action. -/
theorem processEvent_uses_first_log_only_witness :
    (stTest.poolMap.lookup 7).isSome = true ∧
    stTest.poolMap.lookup 1 = none ∧
    processEvent envAllOk stTest
      (UniArb.Event.MEVShareEvent { hash := 3, logs := [⟨1⟩, ⟨7⟩] }) = .ok none :=
  ⟨by decide, by decide,
   (processEvent_uses_first_log_only envAllOk stTest 3 ⟨1⟩ [⟨7⟩] []).2 (by decide)⟩
